import Mathlib

/-!
Shallow embedding of the Confluence live-sync plugin core
(src/src/main.ts of callum-nourish/atlassian-integration).

Conventions of the embedding:
* JS plain objects `Record<string, string>` become association lists
  (`AList`) preserving insertion order; `undefined` becomes `none`.
* JS falsy checks on strings (`!pageId`, `!currentHash`) become
  comparisons with the empty string / `Option.isNone`.
* Remote calls and file reads are oracles passed as function arguments
  (`del : String → DeleteOutcome`, `hashOf : String → Option String`,
  `pub : String → Option DoPublishOut`); `none` / `.err` model a thrown
  exception or a failed read.
* The async methods of the plugin are split at their `await` suspension
  points; an interleaving small-step machine (`Step`) schedules the
  atomic segments, and a sequential big-step variant (`SerialStep`)
  models executions in which every handler runs to completion without
  interleaving.
-/

namespace Confluence

/-- Association list with string keys modelling a JS `Record<string, string>`:
insertion order preserved, assignment updates in place. -/
abbrev AList := List (String × String)

/-- Property lookup `obj[k]`; `none` models `undefined`. -/
def alookup : AList → String → Option String
  | [], _ => none
  | e :: rest, k => if e.1 == k then some e.2 else alookup rest k

/-- Property assignment `obj[k] = v`: updates the existing entry in place or
appends a new one (JS object insertion-order semantics). -/
def aset : AList → String → String → AList
  | [], k, v => [(k, v)]
  | e :: rest, k, v => if e.1 == k then (e.1, v) :: rest else e :: aset rest k v

/-- Property deletion `delete obj[k]`. -/
def aremove (st : AList) (k : String) : AList :=
  st.filter (fun e => !(e.1 == k))

/-- `Set.add` on the live-sync queue: JS `Set<string>` keeps insertion order
and ignores duplicate inserts. -/
def addDedup (q : List String) (p : String) : List String :=
  if q.contains p then q else q ++ [p]

/-- Whether `pat` matches the front of `s` (on character lists). -/
def matchesFront : List Char → List Char → Bool
  | [], _ => true
  | _ :: _, [] => false
  | a :: as, b :: bs => a == b && matchesFront as bs

/-- Whether `pat` occurs as a contiguous run somewhere in `s`. -/
def listHasSub (pat : List Char) : List Char → Bool
  | [] => matchesFront pat []
  | c :: rest => matchesFront pat (c :: rest) || listHasSub pat rest

/-- JS `String.prototype.includes`: `pat` occurs somewhere in `s`. -/
def containsSub (s pat : String) : Bool :=
  listHasSub pat.data s.data

/-- A thrown JS error value, in the shapes `isConfluenceNotFound`
(src/src/main.ts lines 945-983) distinguishes:
`httpErr` is an `instanceof HTTPError` with `response.status`;
`jsError` a plain `instanceof Error` carrying only a message;
`objErr` an arbitrary object with the optional numeric fields the code
probes (`statusCode`, `body.statusCode`, `response.status`,
`response.data.statusCode`), an optional string `message`, and its
`JSON.stringify` rendering; `strErr` a thrown string; `nullish` models
`null`/`undefined`. -/
inductive JsErr where
  | nullish
  | httpErr (status : Nat) (message : String)
  | jsError (message : String)
  | objErr (statusCode bodyStatusCode respStatus respDataStatusCode : Option Nat)
      (message : Option String) (stringified : String)
  | strErr (s : String)
deriving DecidableEq, Repr

/-- The human-readable reason recorded on a failed deletion
(src/src/main.ts lines 565-566):
`error instanceof Error ? error.message : JSON.stringify(error)`. -/
def reasonOf : JsErr → String
  | JsErr.nullish => "null"
  | JsErr.httpErr _ m => m
  | JsErr.jsError m => m
  | JsErr.objErr _ _ _ _ _ str => str
  | JsErr.strErr s => "\"" ++ s ++ "\""

/-- The textual not-found markers probed by `isConfluenceNotFound`
(src/src/main.ts lines 979-982). -/
def notFoundMessage (m : String) : Bool :=
  containsSub m ("NotFoundException") || containsSub m ("\"statusCode\":404")

/-- `isConfluenceNotFound` (src/src/main.ts lines 945-983): classifies a
thrown error as a distinguishable not-found signal. Falsy errors are
rejected up front; a dedicated `HTTPError` is classified by
`response.status === 404`; otherwise the code probes four possible
response shapes for a 404 status code and finally falls back to the
textual markers in the message (or in the error itself when a string was
thrown). -/
def isConfluenceNotFound : JsErr → Bool
  | JsErr.nullish => false
  | JsErr.httpErr status _ => status == 404
  | JsErr.jsError m => notFoundMessage m
  | JsErr.strErr s => if s == "" then false else notFoundMessage s
  | JsErr.objErr sc bsc rs rds msg _ =>
      if sc == some 404 then true
      else if bsc == some 404 then true
      else if rs == some 404 then true
      else if rds == some 404 then true
      else
        match msg with
        | some m => notFoundMessage m
        | none => false

/-- Outcome of `confluenceClient.content.deleteContent`: success, or a thrown
error. -/
inductive DeleteOutcome where
  | ok
  | err (e : JsErr)
deriving DecidableEq, Repr

/-- Result of one `removeBacklinkOrphans` pass. `state` is the mutated
`backlinkPublishState`; `deletedPaths` / `failedDeletions` are the
`BacklinkCleanupStats`; `deleteCalls` records each `deleteContent` call by
page id in order; `clearedPageIds` records each
`adaptor.clearConfluencePageId` call; `mutated` is the flag that gates the
final `saveData`. -/
structure CleanupRun where
  state : AList
  deletedPaths : List String
  failedDeletions : List (String × String)
  deleteCalls : List String
  clearedPageIds : List String
  mutated : Bool
deriving DecidableEq, Repr

/-- The stale entries of `removeBacklinkOrphans` (src/src/main.ts lines
533-535): entries of `backlinkPublishState` whose path is not in
`currentEligiblePaths`. -/
def staleEntriesOf (state : AList) (currentEligiblePaths : List String) : AList :=
  state.filter (fun e => !(currentEligiblePaths.contains e.1))

/-- One iteration of the `for (const [path, pageId] of staleEntries)` loop in
`removeBacklinkOrphans` (src/src/main.ts lines 543-574). An entry with a
falsy page id is dropped locally without a remote call; otherwise
`deleteContent` is attempted: on success (or on an error classified as
not-found) the local mapping is removed, the cached page id cleared and the
path recorded as deleted; on any other error the mapping is kept and
`(path, reason)` is recorded as a failed deletion. -/
def orphanStep (del : String → DeleteOutcome) (acc : CleanupRun) (e : String × String) : CleanupRun :=
  if e.2 == "" then
    { acc with state := aremove acc.state e.1, mutated := true }
  else
    match del e.2 with
    | DeleteOutcome.ok =>
        { acc with
          state := aremove acc.state e.1,
          deletedPaths := acc.deletedPaths ++ [e.1],
          deleteCalls := acc.deleteCalls ++ [e.2],
          clearedPageIds := acc.clearedPageIds ++ [e.1],
          mutated := true }
    | DeleteOutcome.err er =>
        if isConfluenceNotFound er then
          { acc with
            state := aremove acc.state e.1,
            deletedPaths := acc.deletedPaths ++ [e.1],
            deleteCalls := acc.deleteCalls ++ [e.2],
            clearedPageIds := acc.clearedPageIds ++ [e.1],
            mutated := true }
        else
          { acc with
            failedDeletions := acc.failedDeletions ++ [(e.1, reasonOf er)],
            deleteCalls := acc.deleteCalls ++ [e.2] }

/-- Whether the orphan loop removes entry `e` from the local state: it has
a falsy page id, or its delete succeeds, or its delete fails with an error
classified as not-found. -/
def entryRemoved (del : String → DeleteOutcome) (e : String × String) : Bool :=
  e.2 == "" ||
    (match del e.2 with
     | DeleteOutcome.ok => true
     | DeleteOutcome.err er => isConfluenceNotFound er)

/-- The failed-deletion record entry `e` contributes, if any: only a
stale entry with a non-empty page id whose delete fails with an error not
classified as not-found contributes `(path, reason)`. -/
def failEntryOf (del : String → DeleteOutcome) (e : String × String) :
    Option (String × String) :=
  if e.2 == "" then none
  else
    match del e.2 with
    | DeleteOutcome.ok => none
    | DeleteOutcome.err er =>
        if isConfluenceNotFound er then none else some (e.1, reasonOf er)

/-- `removeBacklinkOrphans` (src/src/main.ts lines 525-579). The
`!this.confluenceClient` early return is not modelled: `init` always
constructs the client before any caller runs. -/
def removeBacklinkOrphans (del : String → DeleteOutcome) (state : AList)
    (currentEligiblePaths : List String) : CleanupRun :=
  let staleEntries := staleEntriesOf state currentEligiblePaths
  if staleEntries.isEmpty then ⟨state, [], [], [], [], false⟩
  else staleEntries.foldl (orphanStep del) ⟨state, [], [], [], [], false⟩

/-- One element of the list returned by `publisher.publish`: the file's path,
the remote page id it reports (`""` models an absent id), whether a
`successfulUploadResult` is present, and the optional failure reason. -/
structure AdrFileResult where
  absoluteFilePath : String
  pageId : String
  success : Bool
  reason : Option String
deriving DecidableEq, Repr

/-- `updateBacklinkState` (src/src/main.ts lines 581-600): for each publish
result, a reported page id is written into `backlinkPublishState` when it
differs from the stored one; a missing id deletes an existing (truthy)
entry. -/
def updateBacklinkState (results : List AdrFileResult) (state : AList) : AList :=
  results.foldl
    (fun st r =>
      if r.pageId != "" then
        if alookup st r.absoluteFilePath == some r.pageId then st
        else aset st r.absoluteFilePath r.pageId
      else
        match alookup st r.absoluteFilePath with
        | some v => if v != "" then aremove st r.absoluteFilePath else st
        | none => st)
    state

/-- The persisted settings fields touched by `doPublish`. -/
structure PubSettings where
  backlinkPublishState : AList
  liveSyncHashes : AList
deriving DecidableEq, Repr

/-- Result of one `doPublish` call: the settings after its state mutations,
the `failedFiles` of the returned `UploadResults`, and the remote delete
calls made by its cleanup phase. -/
structure DoPublishOut where
  settings : PubSettings
  failedFiles : List (String × String)
  deleteCalls : List String
deriving DecidableEq, Repr

/-- `doPublish` (src/src/main.ts lines 211-250). `pipelineResult` is the
value returned by `publisher.publish(publishFilter)`. Cleanup runs when
`!(options?.skipCleanup ?? Boolean(publishFilter))`, against the set of
paths returned by the pipeline; afterwards `updateBacklinkState` records
the reported page ids, and failed files are collected with
`reason ?? "No Reason Provided"`. -/
def doPublish (publishFilter : Option String) (skipCleanup : Option Bool)
    (pipelineResult : List AdrFileResult) (del : String → DeleteOutcome)
    (st : PubSettings) : DoPublishOut :=
  let adrFiles := pipelineResult
  let shouldCleanup := !(skipCleanup.getD (publishFilter.getD "" != ""))
  let afterCleanup :=
    if shouldCleanup then
      let eligiblePaths := adrFiles.map (fun r => r.absoluteFilePath)
      let run := removeBacklinkOrphans del st.backlinkPublishState eligiblePaths
      ({ st with backlinkPublishState := run.state }, run.deleteCalls)
    else (st, [])
  let st2 :=
    { afterCleanup.1 with
      backlinkPublishState := updateBacklinkState adrFiles afterCleanup.1.backlinkPublishState }
  let failedFiles := adrFiles.filterMap fun r =>
    if r.success then none
    else some (r.absoluteFilePath, r.reason.getD ("No Reason Provided"))
  ⟨st2, failedFiles, afterCleanup.2⟩

/-- The settings fields read and written by `maybeRunOrphanCleanup`. -/
structure OrphanSettings where
  orphanCleanupIntervalHours : Int
  lastOrphanCleanupTs : Int
  backlinkPublishState : AList
deriving DecidableEq, Repr

/-- `maybeRunOrphanCleanup` (src/src/main.ts lines 903-921): the cadence in
hours is clamped to at least 1 and converted to milliseconds; a non-forced
call inside the cooldown window returns without side effects; otherwise
the orphan sweep runs against `eligiblePaths` (the collected eligible
live-sync paths) and `lastOrphanCleanupTs` is set to `now` afterwards,
whether or not any deletion failed. The returned flag records whether the
sweep ran. -/
def maybeRunOrphanCleanup (force : Bool) (now : Int) (del : String → DeleteOutcome)
    (eligiblePaths : List String) (st : OrphanSettings) : OrphanSettings × Bool :=
  let intervalHours := max 1 st.orphanCleanupIntervalHours
  let intervalMs := intervalHours * 3600000
  if !force && decide (now - st.lastOrphanCleanupTs < intervalMs) then (st, false)
  else
    let run := removeBacklinkOrphans del st.backlinkPublishState eligiblePaths
    ({ st with backlinkPublishState := run.state, lastOrphanCleanupTs := now }, true)

/-- `runOrphanCleanupNow` (src/src/main.ts lines 923-925): the forced
variant. -/
def runOrphanCleanupNow (now : Int) (del : String → DeleteOutcome)
    (eligiblePaths : List String) (st : OrphanSettings) : OrphanSettings × Bool :=
  maybeRunOrphanCleanup true now del eligiblePaths st

/-- JS `String.prototype.trim`: strip whitespace from both ends
(structurally recursive model on the character list). -/
def jsTrim (s : String) : String :=
  String.mk
    (((s.data.dropWhile Char.isWhitespace).reverse.dropWhile Char.isWhitespace).reverse)

/-- JS `String.prototype.startsWith`. -/
def jsStartsWith (s pre : String) : Bool :=
  matchesFront pre.data s.data

/-- JS `String.prototype.toLowerCase` (ASCII-faithful model mapping
`Char.toLower` over the characters). -/
def jsToLower (s : String) : String :=
  String.mk (s.data.map Char.toLower)

/-- The regex replace `folderFilter.replace(/\/+$/, "")` of
src/src/main.ts line 658: strip every trailing slash. -/
def stripTrailingSlashes (s : String) : String :=
  String.mk ((s.data.reverse.dropWhile (fun c => c == '/')).reverse)

/-- The metadata cache entry of a file: the extracted link and embed
targets. `none` on a list element models a `link.link` that is
`undefined`; `none` on the whole cache models
`metadataCache.getFileCache(file)` returning nothing. -/
structure FileCache where
  links : Option (List (Option String))
  embeds : Option (List (Option String))
deriving DecidableEq, Repr

/-- `isFileEligibleForLiveSync` (src/src/main.ts lines 656-703), with the
`normalizeBacklinkKey` helper (imported from ./backlinkUtils, outside
src/) abstracted as the `normalize` parameter: every theorem about this
definition is proved for an arbitrary normalization function. -/
def isFileEligibleForLiveSync (normalize : String → String)
    (folderToPublish keyBacklink : String) (path : String)
    (cache : Option FileCache) : Bool :=
  let folderFilter := jsTrim folderToPublish
  let normalizedFolder := stripTrailingSlashes folderFilter
  let folderFilterActive := normalizedFolder.length != 0
  let normalizedKey := normalize keyBacklink
  let backlinkFilterActive := normalizedKey.length != 0
  let isInFolder :=
    folderFilterActive &&
      (path == normalizedFolder || jsStartsWith path (normalizedFolder ++ "/"))
  if folderFilterActive && isInFolder then true
  else if folderFilterActive && !backlinkFilterActive then false
  else if !folderFilterActive && !backlinkFilterActive then true
  else if !backlinkFilterActive then true
  else
    match cache with
    | none => false
    | some c =>
      let normalizedNeedle := jsToLower normalizedKey
      let matchesLinks :=
        (c.links.getD []).any (fun l => jsToLower (normalize (l.getD "")) == normalizedNeedle)
      if matchesLinks then true
      else
        (c.embeds.getD []).any (fun l => jsToLower (normalize (l.getD "")) == normalizedNeedle)

/-- The document's extracted link targets, `link.link ?? ""` applied; empty
when the metadata cache has nothing for the file. -/
def cacheLinkTargets (cache : Option FileCache) : List String :=
  match cache with
  | none => []
  | some c => (c.links.getD []).map (fun l => l.getD "")

/-- The document's extracted embed targets, `embed.link ?? ""` applied. -/
def cacheEmbedTargets (cache : Option FileCache) : List String :=
  match cache with
  | none => []
  | some c => (c.embeds.getD []).map (fun l => l.getD "")

/-- The ordered eligibility rules as spec.md section 4.1 words them
(written from the spec, to be compared with the source-translated
`isFileEligibleForLiveSync`): (1) folder configured and document in scope
→ eligible; (2) folder configured, document outside, no key → not
eligible; (3) neither configured → eligible; (4) no key configured in the
remaining case → NOT eligible; (5) otherwise eligible iff any normalized
link or embed target equals the normalized key case-insensitively. -/
def eligibleSpecRules (normalize : String → String)
    (folderToPublish keyBacklink : String) (path : String)
    (cache : Option FileCache) : Bool :=
  let folder := stripTrailingSlashes (jsTrim folderToPublish)
  let folderConfigured := folder.length != 0
  let key := normalize keyBacklink
  let keyConfigured := key.length != 0
  let inScope := path == folder || jsStartsWith path (folder ++ "/")
  if folderConfigured && inScope then true
  else if folderConfigured && !keyConfigured then false
  else if !folderConfigured && !keyConfigured then true
  else if !keyConfigured then false
  else
    let needle := jsToLower key
    (cacheLinkTargets cache).any (fun t => jsToLower (normalize t) == needle) ||
      (cacheEmbedTargets cache).any (fun t => jsToLower (normalize t) == needle)

/-- The target-filter loop of `flushLiveSyncQueue` (src/src/main.ts lines
735-745): for each queued path compute the current hash (`hashOf` is the
`computeFileHash` oracle; `none` models a failed read or missing file); a
falsy hash is skipped, a hash equal to the stored `liveSyncHashes` entry
is suppressed, everything else becomes a publish target paired with its
fresh hash. -/
def computeTargets (hashOf : String → Option String) (liveSyncHashes : AList)
    (queuedPaths : List String) : List (String × String) :=
  queuedPaths.filterMap fun path =>
    match hashOf path with
    | none => none
    | some h =>
      if h == "" then none
      else if alookup liveSyncHashes path == some h then none
      else some (path, h)

/-- The hash-table effect of one iteration of the publish loop in
`flushLiveSyncQueue` (src/src/main.ts lines 755-772): when `doPublish`
returned with an empty `failedFiles` list the fresh hash is stored;
a reported failure or a thrown exception (`res = none`) leaves the table
untouched. -/
def publishLoopStep (res : Option DoPublishOut) (t : String × String)
    (hashes : AList) : AList :=
  match res with
  | some r => if r.failedFiles.isEmpty then aset hashes t.1 t.2 else hashes
  | none => hashes

/-- The whole publish loop's effect on `liveSyncHashes`; `pub` is the
per-path `doPublish` outcome oracle. -/
def publishLoop (pub : String → Option DoPublishOut)
    (targets : List (String × String)) (hashes : AList) : AList :=
  targets.foldl (fun hs t => publishLoopStep (pub t.1) t hs) hashes

/-- The status-bar label state set through `updateStatusBar`
(src/src/main.ts lines 806-825). -/
inductive Status where
  | idle
  | pending (n : Nat)
  | syncing (n : Nat)
deriving DecidableEq, Repr

/-- The mutable runtime state of the plugin relevant to the queue/publish
machinery: the settings fields it reads, the `isSyncing` flag, the
pending queue, the debounce timer handle (abstracted to a Boolean),
the rendered status, the number of `doPublish` invocations currently in
flight, and the live-sync hash table. -/
structure MState where
  liveSyncEnabled : Bool
  liveSyncStrategy : String
  folderToPublish : String
  keyBacklink : String
  isSyncing : Bool
  queue : List String
  timerActive : Bool
  status : Status
  inFlight : Nat
  liveSyncHashes : AList
deriving DecidableEq, Repr

/-- A vault file as seen by `onVaultFileModified`: its path, whether it is
a `TFile`, its extension, and its metadata cache. -/
structure VFile where
  path : String
  isTFile : Bool
  extension : String
  cache : Option FileCache
deriving DecidableEq, Repr

/-- `shouldUseOnSaveSync` (src/src/main.ts lines 827-833). -/
def shouldUseOnSaveSync (s : MState) : Bool :=
  if !s.liveSyncEnabled then false
  else s.liveSyncStrategy == "on-save" || s.liveSyncStrategy == "both"

/-- `clearLiveSyncQueue` (src/src/main.ts lines 627-636): empty the queue,
cancel the timer, and show idle unless a cycle is in flight. -/
def clearLiveSyncQueue (s : MState) : MState :=
  if !s.isSyncing then
    { s with queue := ([] : List String), timerActive := false, status := Status.idle }
  else { s with queue := ([] : List String), timerActive := false }

/-- `onVaultFileModified` (src/src/main.ts lines 638-654): guard on live
sync being enabled with an on-save strategy, on the file being a markdown
`TFile`, and on eligibility; then enqueue the path, show
`Pending(queue size)` and (re)arm the debounce timer
(`scheduleLiveSync`, lines 705-715, cancels any previous timer first —
abstracted to `timerActive := true`). -/
def onVaultFileModified (normalize : String → String) (f : VFile) (s : MState) : MState :=
  if !s.liveSyncEnabled || !shouldUseOnSaveSync s then s
  else if !f.isTFile then s
  else if f.extension != "md" then s
  else if !(isFileEligibleForLiveSync normalize s.folderToPublish s.keyBacklink f.path f.cache) then s
  else
    let q := addDedup s.queue f.path
    { s with queue := q, status := Status.pending q.length, timerActive := true }

/-- Outcome of the synchronous prefix of `flushLiveSyncQueue`. -/
inductive FlushAOut where
  | done
  | proceed (queued : List String)
deriving DecidableEq, Repr

/-- The synchronous prefix of `flushLiveSyncQueue` (src/src/main.ts lines
717-734), run atomically when the debounce timer fires: disabled sync
clears everything; an empty queue shows idle (after the orphan-cleanup
check, which does not touch this state); a cycle already in flight
reschedules the timer; otherwise the queue is snapshotted and cleared and
the hash loop begins. -/
def flushA (s : MState) : MState × FlushAOut :=
  if !s.liveSyncEnabled then (clearLiveSyncQueue s, FlushAOut.done)
  else if s.queue.length == 0 then
    (if !s.isSyncing then { s with status := Status.idle } else s, FlushAOut.done)
  else if s.isSyncing then ({ s with timerActive := true }, FlushAOut.done)
  else ({ s with queue := ([] : List String) }, FlushAOut.proceed s.queue)

/-- The segment of `flushLiveSyncQueue` after the hash loop (src/src/main.ts
lines 746-752): empty targets show idle and return; otherwise `isSyncing`
is set and `Syncing(target count)` shown. -/
def flushB (oracle : String → Option String) (queued : List String) (s : MState) :
    MState × Option (List (String × String)) :=
  let targets := computeTargets oracle s.liveSyncHashes queued
  if targets.isEmpty then ({ s with status := Status.idle }, none)
  else ({ s with isSyncing := true, status := Status.syncing targets.length }, some targets)

/-- The `finally` block of `flushLiveSyncQueue` (src/src/main.ts lines
776-782): clear `isSyncing` and show idle if the queue is still empty. -/
def flushD (s : MState) : MState :=
  if s.queue.isEmpty then { s with isSyncing := false, status := Status.idle }
  else { s with isSyncing := false }

/-- A suspended continuation of an async handler: a flush waiting on its
hash computations, a flush waiting on the `doPublish` of its current
target, or a ribbon/command publish waiting on its `doPublish`. -/
inductive Task where
  | flushHash (queued : List String)
  | flushPub (current : String × String) (rest : List (String × String))
  | ribbonPub
deriving DecidableEq, Repr

/-- A configuration of the interleaving machine: the shared plugin state
plus the suspended tasks. -/
structure Config where
  st : MState
  tasks : List Task
deriving DecidableEq, Repr

/-- Result of the timer firing: the timeout callback nulls the handle and
runs the synchronous prefix of the flush; a `proceed` outcome suspends the
flush at its hash loop. -/
def timerFireResult (s : MState) (ts : List Task) : Config :=
  match flushA { s with timerActive := false } with
  | (s1, FlushAOut.done) => ⟨s1, ts⟩
  | (s1, FlushAOut.proceed queued) => ⟨s1, Task.flushHash queued :: ts⟩

/-- Result of resuming a suspended hash loop with the hashes the oracle
produced: either the flush ends (no targets), or `isSyncing` is set and
the first target's `doPublish` is started. -/
def resumeHashResult (oracle : String → Option String) (queued : List String)
    (s : MState) (ts1 ts2 : List Task) : Config :=
  match flushB oracle queued s with
  | (s1, none) => ⟨s1, ts1 ++ ts2⟩
  | (s1, some []) => ⟨s1, ts1 ++ ts2⟩
  | (s1, some (t :: rest)) =>
      ⟨{ s1 with inFlight := s1.inFlight + 1 }, ts1 ++ Task.flushPub t rest :: ts2⟩

/-- Result of a target's `doPublish` completing with outcome `res`
(`none` = thrown): the hash table is updated on success, and either the
next target's publish starts or the flush runs its `finally` block. -/
def pubDoneResult (res : Option DoPublishOut) (t : String × String)
    (rest : List (String × String)) (s : MState) (ts1 ts2 : List Task) : Config :=
  let s1 :=
    { s with
      inFlight := s.inFlight - 1
      liveSyncHashes := publishLoopStep res t s.liveSyncHashes }
  match rest with
  | [] => ⟨flushD s1, ts1 ++ ts2⟩
  | t' :: rest' =>
      ⟨{ s1 with inFlight := s1.inFlight + 1 }, ts1 ++ Task.flushPub t' rest' :: ts2⟩

/-- Small-step interleaving semantics of the queue/publish machinery, at the
granularity of `await` suspension points. `modify` is the (await-free)
vault modify handler; `ribbonStart`/`ribbonEnd` are the two atomic
segments of the ribbon publish callback (src/src/main.ts lines 256-288:
the guard check, the `isSyncing = true` write and the `doPublish` call
happen synchronously, the `finally` clears the flag when the publish
settles); `timerFire` runs the debounce callback and the flush's
synchronous prefix; `resumeHash` and `pubDone` resume a suspended
flush. -/
inductive Step (normalize : String → String) : Config → Config → Prop where
  | modify (f : VFile) (s : MState) (ts : List Task) :
      Step normalize ⟨s, ts⟩ ⟨onVaultFileModified normalize f s, ts⟩
  | ribbonStart (s : MState) (ts : List Task) (h : s.isSyncing = false) :
      Step normalize ⟨s, ts⟩
        ⟨{ s with isSyncing := true, inFlight := s.inFlight + 1 }, Task.ribbonPub :: ts⟩
  | ribbonEnd (s : MState) (ts1 ts2 : List Task) :
      Step normalize ⟨s, ts1 ++ Task.ribbonPub :: ts2⟩
        ⟨{ s with isSyncing := false, inFlight := s.inFlight - 1 }, ts1 ++ ts2⟩
  | timerFire (s : MState) (ts : List Task) (h : s.timerActive = true) :
      Step normalize ⟨s, ts⟩ (timerFireResult s ts)
  | resumeHash (oracle : String → Option String) (queued : List String)
      (s : MState) (ts1 ts2 : List Task) :
      Step normalize ⟨s, ts1 ++ Task.flushHash queued :: ts2⟩
        (resumeHashResult oracle queued s ts1 ts2)
  | pubDone (res : Option DoPublishOut) (t : String × String)
      (rest : List (String × String)) (s : MState) (ts1 ts2 : List Task) :
      Step normalize ⟨s, ts1 ++ Task.flushPub t rest :: ts2⟩
        (pubDoneResult res t rest s ts1 ts2)

/-- Reachability in the interleaving machine. -/
inductive Reachable (normalize : String → String) : Config → Config → Prop where
  | refl (c : Config) : Reachable normalize c c
  | step {a b c : Config} (hab : Reachable normalize a b) (hbc : Step normalize b c) :
      Reachable normalize a c

/-- The hash-table updates performed by a sequential publish loop over
`targets`. -/
def serialPubFold (pub : String → Option DoPublishOut)
    (targets : List (String × String)) (s : MState) : MState :=
  targets.foldl
    (fun st t => { st with liveSyncHashes := publishLoopStep (pub t.1) t st.liveSyncHashes }) s

/-- `flushLiveSyncQueue` run to completion with no interleaved handler:
the synchronous prefix, then the hash filter, then the sequential publish
loop and the `finally` block. -/
def runFlushSerial (oracle : String → Option String)
    (pub : String → Option DoPublishOut) (s : MState) : MState :=
  match flushA s with
  | (s1, FlushAOut.done) => s1
  | (s1, FlushAOut.proceed queued) =>
      match flushB oracle queued s1 with
      | (s2, none) => s2
      | (s2, some targets) => flushD (serialPubFold pub targets s2)

/-- Big-step (serial) semantics: every handler runs to completion before the
next one starts. A completed ribbon publish leaves this state unchanged
(it toggles `isSyncing` back off and touches neither queue, timer, status
nor hashes); `disable` is the settings surface turning live sync off,
which clears the queue (src/src/main.ts lines 614-625). -/
inductive SerialStep (normalize : String → String) : MState → MState → Prop where
  | modify (f : VFile) (s : MState) :
      SerialStep normalize s (onVaultFileModified normalize f s)
  | flush (oracle : String → Option String) (pub : String → Option DoPublishOut) (s : MState) :
      SerialStep normalize s (runFlushSerial oracle pub { s with timerActive := false })
  | ribbon (s : MState) : SerialStep normalize s s
  | disable (s : MState) :
      SerialStep normalize s (clearLiveSyncQueue { s with liveSyncEnabled := false })

/-- The plugin state right after `onload`: empty queue, no timer, no cycle
in flight, idle status (set by `setupStatusBar`). -/
def initState (enabled : Bool) (strategy folderToPublish keyBacklink : String)
    (hashes : AList) : MState :=
  { liveSyncEnabled := enabled, liveSyncStrategy := strategy,
    folderToPublish := folderToPublish, keyBacklink := keyBacklink,
    isSyncing := false, queue := ([] : List String), timerActive := false,
    status := Status.idle, inFlight := 0, liveSyncHashes := hashes }

/-- States reachable by serial executions from some startup state. -/
inductive SerialReachable (normalize : String → String) : MState → Prop where
  | init (enabled : Bool) (strategy folderToPublish keyBacklink : String) (hashes : AList) :
      SerialReachable normalize (initState enabled strategy folderToPublish keyBacklink hashes)
  | step {a b : MState} (ha : SerialReachable normalize a) (hab : SerialStep normalize a b) :
      SerialReachable normalize b

/-- The status derivation at handler boundaries: no cycle in flight, and the
label is Idle exactly when the queue is empty and `Pending(queue size)`
otherwise. -/
def statusInv (s : MState) : Prop :=
  s.isSyncing = false ∧ s.inFlight = 0 ∧
    (s.queue = [] → s.status = Status.idle) ∧
    (s.queue ≠ [] → s.status = Status.pending s.queue.length)

/-- The identity normalization, used to instantiate the machine on concrete
traces (the trace files carry no backlink syntax to normalize). -/
def idNormalize : String → String := fun s => s

/-- A markdown file eligible under an empty folder filter and empty backlink
key. -/
def exVFile : VFile := ⟨"a.md", true, "md", none⟩

/-- The hash oracle of the concrete traces: every read succeeds with
fingerprint "h". -/
def exOracle : String → Option String := fun _ => some ("h")

/-- Startup state of the concrete traces: live sync enabled, on-save
strategy, no folder filter, no backlink key, empty hash table. -/
def c1s0 : MState := initState true ("on-save") ("") ("") []

/-- Trace state after the modify event for a.md. -/
def c1s1 : MState :=
  { c1s0 with queue := ["a.md"], status := Status.pending 1, timerActive := true }

/-- Trace state after the debounce timer fires: the flush snapshots and
clears the queue and suspends at its hash loop. -/
def c1s2 : MState := { c1s1 with queue := ([] : List String), timerActive := false }

/-- Trace state after a ribbon click while the flush is suspended in its
hash loop: the ribbon guard sees `isSyncing = false`, sets it, and starts
its own `doPublish`. -/
def c1s3 : MState := { c1s2 with isSyncing := true, inFlight := 1 }

/-- Trace state after the flush's hash loop resumes: the flush finds a
target, sets `isSyncing` (already set), shows Syncing(1) and starts a
second concurrent `doPublish`. -/
def c1s4 : MState := { c1s3 with status := Status.syncing 1, inFlight := 2 }

/-- Final configuration of the single-flight violation trace: two publish
pipeline invocations in flight at once. -/
def c1bad : Config := ⟨c1s4, [Task.ribbonPub, Task.flushPub ("a.md", "h") []]⟩

/-- Final configuration of the status counterexample trace: a ribbon publish
in flight while the label still shows Pending(1). -/
def c9bad : Config := ⟨{ c1s1 with isSyncing := true, inFlight := 1 }, [Task.ribbonPub]⟩

/-! Helper lemmas about association lists. -/

theorem alookup_aset_self (st : AList) (k v : String) :
    alookup (aset st k v) k = some v := by
  induction st with
  | nil => simp [aset, alookup]
  | cons e rest ih =>
    by_cases h : e.1 = k
    · simp [aset, alookup, h]
    · simp [aset, alookup, h, ih]

theorem alookup_aset_ne (st : AList) (k p v : String) (h : k ≠ p) :
    alookup (aset st k v) p = alookup st p := by
  induction st with
  | nil => simp [aset, alookup, h]
  | cons e rest ih =>
    by_cases hek : e.1 = k
    · simp [aset, alookup, hek, h]
    · simp [aset, alookup, hek, ih]

theorem alookup_aremove (st : AList) (k p : String) :
    alookup (aremove st k) p = if k = p then none else alookup st p := by
  induction st with
  | nil => simp [aremove, alookup]
  | cons e rest ih =>
    by_cases hek : e.1 = k
    · have h1 : aremove (e :: rest) k = aremove rest k := by
        simp [aremove, List.filter_cons, hek]
      rw [h1, ih]
      by_cases hkp : k = p
      · simp [hkp]
      · have hep : e.1 ≠ p := fun h => hkp (hek.symm.trans h)
        simp [alookup, hep, hkp]
    · have h1 : aremove (e :: rest) k = e :: aremove rest k := by
        simp [aremove, List.filter_cons, hek]
      rw [h1]
      by_cases hep : e.1 = p
      · have hkp : k ≠ p := fun h => hek (hep.trans h.symm)
        simp [alookup, hep, hkp]
      · simp [alookup, hep, ih]

theorem alookup_eq_some_of_mem_nodup (st : AList) (p v : String)
    (hmem : (p, v) ∈ st) (hnd : (st.map Prod.fst).Nodup) :
    alookup st p = some v := by
  induction st with
  | nil => simp at hmem
  | cons e rest ih =>
    simp only [List.map_cons, List.nodup_cons] at hnd
    rcases List.mem_cons.mp hmem with he | hr
    · simp [alookup, ← he]
    · have hne : e.1 ≠ p := by
        intro hc
        exact hnd.1 (hc ▸ (List.mem_map.mpr ⟨(p, v), hr, rfl⟩))
      simp [alookup, hne, ih hr hnd.2]

theorem keyUnique {st : AList} (hnd : (st.map Prod.fst).Nodup)
    {a b : String × String} (ha : a ∈ st) (hb : b ∈ st) (hk : a.1 = b.1) :
    a = b := by
  induction st with
  | nil => simp at ha
  | cons e rest ih =>
    rw [List.map_cons, List.nodup_cons] at hnd
    rcases List.mem_cons.mp ha with rfl | har
    · rcases List.mem_cons.mp hb with rfl | hbr
      · rfl
      · exact absurd (List.mem_map.mpr ⟨b, hbr, hk.symm⟩) hnd.1
    · rcases List.mem_cons.mp hb with rfl | hbr
      · exact absurd (List.mem_map.mpr ⟨a, har, hk⟩) hnd.1
      · exact ih hnd.2 har hbr

/-! Helper lemmas about the orphan-cleanup loop. -/

theorem orphanStep_deleteCalls (del : String → DeleteOutcome) (acc : CleanupRun)
    (e : String × String) :
    (orphanStep del acc e).deleteCalls =
      acc.deleteCalls ++ (if e.2 == "" then [] else [e.2]) := by
  by_cases h : e.2 = ""
  · simp [orphanStep, h]
  · cases hd : del e.2 with
    | ok => simp [orphanStep, h, hd]
    | err er =>
      by_cases hnf : isConfluenceNotFound er <;> simp [orphanStep, h, hd, hnf]

theorem orphanStep_deletedPaths (del : String → DeleteOutcome) (acc : CleanupRun)
    (e : String × String) :
    (orphanStep del acc e).deletedPaths =
      acc.deletedPaths ++ (if e.2 != "" && entryRemoved del e then [e.1] else []) := by
  by_cases h : e.2 = ""
  · simp [orphanStep, h]
  · cases hd : del e.2 with
    | ok => simp [orphanStep, entryRemoved, h, hd]
    | err er =>
      by_cases hnf : isConfluenceNotFound er <;>
        simp [orphanStep, entryRemoved, h, hd, hnf]

theorem orphanStep_clearedPageIds (del : String → DeleteOutcome) (acc : CleanupRun)
    (e : String × String) :
    (orphanStep del acc e).clearedPageIds =
      acc.clearedPageIds ++ (if e.2 != "" && entryRemoved del e then [e.1] else []) := by
  by_cases h : e.2 = ""
  · simp [orphanStep, h]
  · cases hd : del e.2 with
    | ok => simp [orphanStep, entryRemoved, h, hd]
    | err er =>
      by_cases hnf : isConfluenceNotFound er <;>
        simp [orphanStep, entryRemoved, h, hd, hnf]

theorem orphanStep_failedDeletions (del : String → DeleteOutcome) (acc : CleanupRun)
    (e : String × String) :
    (orphanStep del acc e).failedDeletions =
      acc.failedDeletions ++ (failEntryOf del e).toList := by
  by_cases h : e.2 = ""
  · simp [orphanStep, failEntryOf, h]
  · cases hd : del e.2 with
    | ok => simp [orphanStep, failEntryOf, h, hd]
    | err er =>
      by_cases hnf : isConfluenceNotFound er <;>
        simp [orphanStep, failEntryOf, h, hd, hnf]

theorem orphanStep_state (del : String → DeleteOutcome) (acc : CleanupRun)
    (e : String × String) :
    (orphanStep del acc e).state =
      if entryRemoved del e then aremove acc.state e.1 else acc.state := by
  by_cases h : e.2 = ""
  · simp [orphanStep, entryRemoved, h]
  · cases hd : del e.2 with
    | ok => simp [orphanStep, entryRemoved, h, hd]
    | err er =>
      by_cases hnf : isConfluenceNotFound er <;>
        simp [orphanStep, entryRemoved, h, hd, hnf]

theorem orphanFold_deleteCalls (del : String → DeleteOutcome)
    (entries : AList) :
    ∀ acc : CleanupRun,
      (entries.foldl (orphanStep del) acc).deleteCalls =
        acc.deleteCalls ++ (entries.filter (fun e => e.2 != "")).map Prod.snd := by
  induction entries with
  | nil => intro acc; simp
  | cons e rest ih =>
    intro acc
    rw [List.foldl_cons, ih, orphanStep_deleteCalls]
    by_cases h : e.2 = "" <;> simp [h, List.filter_cons]

theorem orphanFold_deletedPaths (del : String → DeleteOutcome)
    (entries : AList) :
    ∀ acc : CleanupRun,
      (entries.foldl (orphanStep del) acc).deletedPaths =
        acc.deletedPaths ++
          (entries.filter (fun e => e.2 != "" && entryRemoved del e)).map Prod.fst := by
  induction entries with
  | nil => intro acc; simp
  | cons e rest ih =>
    intro acc
    rw [List.foldl_cons, ih, orphanStep_deletedPaths]
    by_cases h : (e.2 != "" && entryRemoved del e) = true <;>
      simp [h, List.filter_cons]

theorem orphanFold_clearedPageIds (del : String → DeleteOutcome)
    (entries : AList) :
    ∀ acc : CleanupRun,
      (entries.foldl (orphanStep del) acc).clearedPageIds =
        acc.clearedPageIds ++
          (entries.filter (fun e => e.2 != "" && entryRemoved del e)).map Prod.fst := by
  induction entries with
  | nil => intro acc; simp
  | cons e rest ih =>
    intro acc
    rw [List.foldl_cons, ih, orphanStep_clearedPageIds]
    by_cases h : (e.2 != "" && entryRemoved del e) = true <;>
      simp [h, List.filter_cons]

theorem orphanFold_failedDeletions (del : String → DeleteOutcome)
    (entries : AList) :
    ∀ acc : CleanupRun,
      (entries.foldl (orphanStep del) acc).failedDeletions =
        acc.failedDeletions ++ entries.filterMap (failEntryOf del) := by
  induction entries with
  | nil => intro acc; simp
  | cons e rest ih =>
    intro acc
    rw [List.foldl_cons, ih, orphanStep_failedDeletions]
    cases h : failEntryOf del e <;> simp [h, List.filterMap_cons]

theorem orphanFold_state (del : String → DeleteOutcome)
    (entries : AList) :
    ∀ acc : CleanupRun,
      (entries.foldl (orphanStep del) acc).state =
        entries.foldl
          (fun st e => if entryRemoved del e then aremove st e.1 else st) acc.state := by
  induction entries with
  | nil => intro acc; simp
  | cons e rest ih =>
    intro acc
    rw [List.foldl_cons, ih, List.foldl_cons, orphanStep_state]

theorem stateFold_none_mono (del : String → DeleteOutcome) (entries : AList)
    (p : String) :
    ∀ st : AList, alookup st p = none →
      alookup
        (entries.foldl
          (fun st e => if entryRemoved del e then aremove st e.1 else st) st) p = none := by
  induction entries with
  | nil => intro st h; simpa using h
  | cons e rest ih =>
    intro st h
    rw [List.foldl_cons]
    apply ih
    by_cases hr : entryRemoved del e <;> simp [hr, alookup_aremove, h]

theorem stateFold_lookup_none (del : String → DeleteOutcome) (entries : AList)
    (p : String) (e : String × String) (he : e ∈ entries) (hp : e.1 = p)
    (hrm : entryRemoved del e = true) :
    ∀ st : AList,
      alookup
        (entries.foldl
          (fun st e => if entryRemoved del e then aremove st e.1 else st) st) p = none := by
  induction entries with
  | nil => simp at he
  | cons a rest ih =>
    intro st
    rw [List.foldl_cons]
    rcases List.mem_cons.mp he with rfl | hr
    · apply stateFold_none_mono
      simp [hrm, hp, alookup_aremove]
    · exact ih hr _

theorem stateFold_keep (del : String → DeleteOutcome) (entries : AList)
    (p : String) (h : ∀ e ∈ entries, e.1 = p → entryRemoved del e = false) :
    ∀ st : AList,
      alookup
        (entries.foldl
          (fun st e => if entryRemoved del e then aremove st e.1 else st) st) p =
        alookup st p := by
  induction entries with
  | nil => intro st; simp
  | cons a rest ih =>
    intro st
    rw [List.foldl_cons]
    have ih' := ih (fun e hmem => h e (List.mem_cons_of_mem a hmem))
    rw [ih']
    by_cases hr : entryRemoved del a
    · have hap : a.1 ≠ p := by
        intro hc
        exact absurd hr (by simp [h a (List.mem_cons_self a rest) hc])
      simp [hr, alookup_aremove, hap]
    · simp [hr]

theorem removeBacklinkOrphans_eq_fold (del : String → DeleteOutcome)
    (state : AList) (el : List String) :
    removeBacklinkOrphans del state el =
      (staleEntriesOf state el).foldl (orphanStep del) ⟨state, [], [], [], [], false⟩ := by
  unfold removeBacklinkOrphans
  cases h : staleEntriesOf state el <;> simp [h]

theorem staleEntriesOf_key_not_eligible (state : AList) (el : List String)
    (e : String × String) (he : e ∈ staleEntriesOf state el) : e.1 ∉ el := by
  have := List.of_mem_filter he
  simpa using this

theorem staleEntriesOf_sublist (state : AList) (el : List String) :
    (staleEntriesOf state el).Sublist state :=
  List.filter_sublist state

theorem staleEntriesOf_nodup_keys (state : AList) (el : List String)
    (hnd : (state.map Prod.fst).Nodup) :
    ((staleEntriesOf state el).map Prod.fst).Nodup :=
  hnd.sublist ((staleEntriesOf_sublist state el).map Prod.fst)

theorem failEntryOf_eq_some (del : String → DeleteOutcome) (e x : String × String)
    (h : failEntryOf del e = some x) :
    x.1 = e.1 ∧ e.2 ≠ "" ∧
      ∃ er, del e.2 = DeleteOutcome.err er ∧ isConfluenceNotFound er = false := by
  unfold failEntryOf at h
  by_cases h2 : e.2 = ""
  · simp [h2] at h
  · cases hd : del e.2 with
    | ok => simp [h2, hd] at h
    | err er =>
      by_cases hnf : isConfluenceNotFound er
      · simp [h2, hd, hnf] at h
      · simp [h2, hd, hnf] at h
        exact ⟨by rw [← h], h2, er, rfl, by simp [hnf]⟩

/-- Claim C2 (confirmed): `removeBacklinkOrphans` attempts a remote delete
exactly for the stale entries with a non-empty remote id, in state order;
a successful delete removes that entry from the BacklinkState; every
non-stale entry (one whose path is in `currentEligiblePaths`) is left
untouched; and on the concrete instance BacklinkState mapping A to "1"
and B to "2" with eligible set containing only A, delete is called for
page id "2" only, B's entry is removed and A's mapping is unchanged. -/
theorem orphan_correctness :
    (∀ (del : String → DeleteOutcome) (state : AList) (eligible : List String),
        (removeBacklinkOrphans del state eligible).deleteCalls =
          ((staleEntriesOf state eligible).filter (fun e => e.2 != "")).map Prod.snd)
  ∧ (∀ (del : String → DeleteOutcome) (state : AList) (eligible : List String)
        (p pid : String),
        (p, pid) ∈ staleEntriesOf state eligible → pid ≠ "" →
        del pid = DeleteOutcome.ok →
        alookup (removeBacklinkOrphans del state eligible).state p = none)
  ∧ (∀ (del : String → DeleteOutcome) (state : AList) (eligible : List String)
        (p : String), p ∈ eligible →
        alookup (removeBacklinkOrphans del state eligible).state p = alookup state p)
  ∧ ((removeBacklinkOrphans (fun _ => DeleteOutcome.ok)
        [("A", "1"), ("B", "2")] ["A"]).deleteCalls = ["2"]
      ∧ alookup (removeBacklinkOrphans (fun _ => DeleteOutcome.ok)
          [("A", "1"), ("B", "2")] ["A"]).state ("A") = some ("1")
      ∧ alookup (removeBacklinkOrphans (fun _ => DeleteOutcome.ok)
          [("A", "1"), ("B", "2")] ["A"]).state ("B") = none) := by
  refine ⟨?_, ?_, ?_, by decide⟩
  · intro del state eligible
    rw [removeBacklinkOrphans_eq_fold, orphanFold_deleteCalls]
    simp
  · intro del state eligible p pid hmem hpid hok
    rw [removeBacklinkOrphans_eq_fold, orphanFold_state]
    exact stateFold_lookup_none del _ p (p, pid) hmem rfl
      (by simp [entryRemoved, hok, hpid]) state
  · intro del state eligible p hel
    rw [removeBacklinkOrphans_eq_fold, orphanFold_state]
    refine stateFold_keep del _ p ?_ state
    intro e he hep
    exact absurd (show e.1 ∈ eligible from by rw [hep]; exact hel)
      (staleEntriesOf_key_not_eligible state eligible e he)

theorem orphan_correctness_witness :
    alookup (removeBacklinkOrphans (fun _ => DeleteOutcome.ok)
      [("A", "1"), ("B", "2")] ["A"]).state ("B") = none :=
  orphan_correctness.2.1 (fun _ => DeleteOutcome.ok) [("A", "1"), ("B", "2")] ["A"]
    ("B") ("2") (by decide) (by decide) rfl

/-- Claim C6 (confirmed): a stale entry whose remote delete throws an error
classified as not-found is treated identically to success — the local
BacklinkState mapping is removed, the cached page id on the document is
cleared, and the path is recorded in `deletedPaths`, not in
`failedDeletions`; moreover the classifier recognizes the dedicated
HTTPError with status 404, a 404 statusCode in each of the probed
response shapes, and both textual markers. -/
theorem notfound_idempotence :
    (∀ (del : String → DeleteOutcome) (state : AList) (eligible : List String)
        (p pid : String) (er : JsErr),
        (state.map Prod.fst).Nodup →
        (p, pid) ∈ staleEntriesOf state eligible → pid ≠ "" →
        del pid = DeleteOutcome.err er → isConfluenceNotFound er = true →
        alookup (removeBacklinkOrphans del state eligible).state p = none
          ∧ p ∈ (removeBacklinkOrphans del state eligible).deletedPaths
          ∧ p ∈ (removeBacklinkOrphans del state eligible).clearedPageIds
          ∧ p ∉ (removeBacklinkOrphans del state eligible).failedDeletions.map Prod.fst)
  ∧ isConfluenceNotFound (JsErr.httpErr 404 ("x")) = true
  ∧ isConfluenceNotFound (JsErr.objErr (some 404) none none none none ("e")) = true
  ∧ isConfluenceNotFound (JsErr.objErr none (some 404) none none none ("e")) = true
  ∧ isConfluenceNotFound (JsErr.objErr none none (some 404) none none ("e")) = true
  ∧ isConfluenceNotFound (JsErr.objErr none none none (some 404) none ("e")) = true
  ∧ isConfluenceNotFound (JsErr.jsError ("NotFoundException: no content with id")) = true
  ∧ isConfluenceNotFound (JsErr.jsError ("response body: \"statusCode\":404")) = true := by
  refine ⟨?_, by decide, by decide, by decide, by decide, by decide, by decide, by decide⟩
  intro del state eligible p pid er hnd hmem hpid hdel hnf
  have hrm : entryRemoved del (p, pid) = true := by
    simp [entryRemoved, hdel, hnf, hpid]
  have hfilter : ((pid != "") && entryRemoved del (p, pid)) = true := by
    simp [hpid, hrm]
  refine ⟨?_, ?_, ?_, ?_⟩
  · rw [removeBacklinkOrphans_eq_fold, orphanFold_state]
    exact stateFold_lookup_none del _ p (p, pid) hmem rfl hrm state
  · rw [removeBacklinkOrphans_eq_fold, orphanFold_deletedPaths]
    simp only [List.nil_append]
    exact List.mem_map.mpr ⟨(p, pid), List.mem_filter.mpr ⟨hmem, hfilter⟩, rfl⟩
  · rw [removeBacklinkOrphans_eq_fold, orphanFold_clearedPageIds]
    simp only [List.nil_append]
    exact List.mem_map.mpr ⟨(p, pid), List.mem_filter.mpr ⟨hmem, hfilter⟩, rfl⟩
  · rw [removeBacklinkOrphans_eq_fold, orphanFold_failedDeletions]
    simp only [List.nil_append]
    intro hcontra
    obtain ⟨b, hb, hbp⟩ := List.mem_map.mp hcontra
    obtain ⟨e, hes, hef⟩ := List.mem_filterMap.mp hb
    obtain ⟨hx1, _, er', hder, hnfer⟩ := failEntryOf_eq_some del e b hef
    have hep : e.1 = p := by rw [← hbp, hx1]
    have heq : e = (p, pid) :=
      keyUnique (staleEntriesOf_nodup_keys state eligible hnd) hes hmem hep
    rw [heq] at hder
    rw [hdel] at hder
    injection hder with hh
    rw [← hh] at hnfer
    rw [hnf] at hnfer
    exact Bool.noConfusion hnfer

theorem notfound_idempotence_witness :
    alookup (removeBacklinkOrphans (fun _ => DeleteOutcome.err (JsErr.httpErr 404 ("gone")))
        [("A", "1"), ("B", "2")] ["A"]).state ("B") = none
      ∧ "B" ∈ (removeBacklinkOrphans (fun _ => DeleteOutcome.err (JsErr.httpErr 404 ("gone")))
          [("A", "1"), ("B", "2")] ["A"]).deletedPaths
      ∧ "B" ∈ (removeBacklinkOrphans (fun _ => DeleteOutcome.err (JsErr.httpErr 404 ("gone")))
          [("A", "1"), ("B", "2")] ["A"]).clearedPageIds
      ∧ "B" ∉ (removeBacklinkOrphans (fun _ => DeleteOutcome.err (JsErr.httpErr 404 ("gone")))
          [("A", "1"), ("B", "2")] ["A"]).failedDeletions.map Prod.fst :=
  notfound_idempotence.1 (fun _ => DeleteOutcome.err (JsErr.httpErr 404 ("gone")))
    [("A", "1"), ("B", "2")] ["A"] ("B") ("2") (JsErr.httpErr 404 ("gone"))
    (by decide) (by decide) (by decide) rfl (by decide)

/-- Claim C8 (confirmed): a stale entry whose remote delete fails with an
error not classified as not-found keeps its BacklinkState mapping,
contributes `(path, reason)` to `failedDeletions` with the reason the code
derives from the error, is deleted-from-remote exactly once (the delete
calls are exactly one per stale entry with a non-empty id), and every
other stale entry with a non-empty id still gets its delete attempted. -/
theorem failed_delete_atomicity :
    ∀ (del : String → DeleteOutcome) (state : AList) (eligible : List String)
      (p pid : String) (er : JsErr),
      (state.map Prod.fst).Nodup →
      (p, pid) ∈ staleEntriesOf state eligible → pid ≠ "" →
      del pid = DeleteOutcome.err er → isConfluenceNotFound er = false →
      alookup (removeBacklinkOrphans del state eligible).state p = some pid
        ∧ (p, reasonOf er) ∈ (removeBacklinkOrphans del state eligible).failedDeletions
        ∧ (removeBacklinkOrphans del state eligible).deleteCalls =
            ((staleEntriesOf state eligible).filter (fun e => e.2 != "")).map Prod.snd
        ∧ (∀ q qid, (q, qid) ∈ staleEntriesOf state eligible → qid ≠ "" →
            qid ∈ (removeBacklinkOrphans del state eligible).deleteCalls) := by
  intro del state eligible p pid er hnd hmem hpid hdel hnf
  have hrm : entryRemoved del (p, pid) = false := by
    simp [entryRemoved, hdel, hnf, hpid]
  refine ⟨?_, ?_, ?_, ?_⟩
  · rw [removeBacklinkOrphans_eq_fold, orphanFold_state]
    have hkeep : ∀ e ∈ staleEntriesOf state eligible, e.1 = p →
        entryRemoved del e = false := by
      intro e he hep
      have heq : e = (p, pid) :=
        keyUnique (staleEntriesOf_nodup_keys state eligible hnd) he hmem hep
      rw [heq]
      exact hrm
    rw [stateFold_keep del _ p hkeep state]
    exact alookup_eq_some_of_mem_nodup state p pid
      ((staleEntriesOf_sublist state eligible).mem hmem) hnd
  · rw [removeBacklinkOrphans_eq_fold, orphanFold_failedDeletions]
    simp only [List.nil_append]
    exact List.mem_filterMap.mpr ⟨(p, pid), hmem, by simp [failEntryOf, hpid, hdel, hnf]⟩
  · rw [removeBacklinkOrphans_eq_fold, orphanFold_deleteCalls]
    simp
  · intro q qid hq hqid
    rw [removeBacklinkOrphans_eq_fold, orphanFold_deleteCalls]
    simp only [List.nil_append]
    exact List.mem_map.mpr ⟨(q, qid), List.mem_filter.mpr ⟨hq, by simp [hqid]⟩, rfl⟩

theorem failed_delete_atomicity_witness :
    alookup (removeBacklinkOrphans (fun _ => DeleteOutcome.err (JsErr.jsError ("boom")))
        [("A", "1"), ("B", "2")] ["A"]).state ("B") = some ("2")
      ∧ ("B", "boom") ∈ (removeBacklinkOrphans (fun _ => DeleteOutcome.err (JsErr.jsError ("boom")))
          [("A", "1"), ("B", "2")] ["A"]).failedDeletions
      ∧ (removeBacklinkOrphans (fun _ => DeleteOutcome.err (JsErr.jsError ("boom")))
          [("A", "1"), ("B", "2")] ["A"]).deleteCalls =
          ((staleEntriesOf [("A", "1"), ("B", "2")] ["A"]).filter
            (fun e => e.2 != "")).map Prod.snd
      ∧ (∀ q qid, (q, qid) ∈ staleEntriesOf [("A", "1"), ("B", "2")] ["A"] → qid ≠ "" →
          qid ∈ (removeBacklinkOrphans (fun _ => DeleteOutcome.err (JsErr.jsError ("boom")))
            [("A", "1"), ("B", "2")] ["A"]).deleteCalls) :=
  failed_delete_atomicity (fun _ => DeleteOutcome.err (JsErr.jsError ("boom")))
    [("A", "1"), ("B", "2")] ["A"] ("B") ("2") (JsErr.jsError ("boom"))
    (by decide) (by decide) (by decide) rfl (by decide)

/-- Claim C7 (confirmed): two non-forced cleanup calls less than the clamped
cadence apart perform the sweep at most once; a non-forced call within the
cooldown leaves the settings (in particular the last-cleanup timestamp)
entirely unchanged; the forced variant always performs the sweep, always
sets the timestamp to now — for every delete oracle, succeeding or
failing — and `runOrphanCleanupNow` is exactly the forced variant. -/
theorem cleanup_cooldown :
    (∀ (st : OrphanSettings) (t0 t1 : Int) (del1 del2 : String → DeleteOutcome)
        (el1 el2 : List String),
        t1 - t0 < max 1 st.orphanCleanupIntervalHours * 3600000 →
        ¬((maybeRunOrphanCleanup false t0 del1 el1 st).2 = true ∧
          (maybeRunOrphanCleanup false t1 del2 el2
            (maybeRunOrphanCleanup false t0 del1 el1 st).1).2 = true))
  ∧ (∀ (st : OrphanSettings) (now : Int) (del : String → DeleteOutcome)
        (el : List String),
        now - st.lastOrphanCleanupTs < max 1 st.orphanCleanupIntervalHours * 3600000 →
        maybeRunOrphanCleanup false now del el st = (st, false))
  ∧ (∀ (st : OrphanSettings) (now : Int) (del : String → DeleteOutcome)
        (el : List String),
        (maybeRunOrphanCleanup true now del el st).2 = true
          ∧ (maybeRunOrphanCleanup true now del el st).1.lastOrphanCleanupTs = now
          ∧ runOrphanCleanupNow now del el st = maybeRunOrphanCleanup true now del el st) := by
  refine ⟨?_, ?_, ?_⟩
  · intro st t0 t1 del1 del2 el1 el2 hlt h
    obtain ⟨h1, h2⟩ := h
    by_cases hg : t0 - st.lastOrphanCleanupTs < max 1 st.orphanCleanupIntervalHours * 3600000
    · simp [maybeRunOrphanCleanup, hg] at h1
    · simp only [maybeRunOrphanCleanup, hg] at h2
      simp [maybeRunOrphanCleanup, hg, hlt] at h2
  · intro st now del el h
    simp [maybeRunOrphanCleanup, h]
  · intro st now del el
    exact ⟨by simp [maybeRunOrphanCleanup], by simp [maybeRunOrphanCleanup], rfl⟩

theorem cleanup_cooldown_witness :
    maybeRunOrphanCleanup false 1 (fun _ => DeleteOutcome.ok) []
      ⟨24, 0, []⟩ = (⟨24, 0, []⟩, false) :=
  cleanup_cooldown.2.1 ⟨24, 0, []⟩ 1 (fun _ => DeleteOutcome.ok) [] (by decide)

/-- Claim C3 counterexample: the claim states that a queued path whose
content read fails (fingerprint oracle returns the failure signal) remains
a publish target; in the code (`if (!currentHash) continue`,
src/src/main.ts lines 737-740) such a path is skipped. With a single
queued path and an always-failing hash oracle the target list is empty. -/
theorem drain_filter_cex :
    ¬(∀ (hashOf : String → Option String) (stored : AList) (queued : List String)
        (p : String), p ∈ queued → hashOf p = none →
        p ∈ (computeTargets hashOf stored queued).map Prod.fst) := by
  intro h
  have hc := h (fun _ => none) [] ["a.md"] ("a.md") (by simp) rfl
  revert hc
  decide

/-- Claim C3 amended (proved): the actual publish targets of a drain are
exactly the snapshotted queued paths whose hash computation succeeds with
a non-falsy fingerprint that differs from the stored `liveSyncHashes`
entry; a path whose read fails (`none`) — or whose fingerprint matches —
is skipped and not published. -/
theorem drain_filter_characterization :
    ∀ (hashOf : String → Option String) (stored : AList) (queued : List String)
      (p h : String),
      (p, h) ∈ computeTargets hashOf stored queued ↔
        (p ∈ queued ∧ hashOf p = some h ∧ h ≠ "" ∧ alookup stored p ≠ some h) := by
  intro hashOf stored queued p h
  constructor
  · intro hmem
    obtain ⟨q, hq, hfq⟩ := List.mem_filterMap.mp hmem
    cases hoq : hashOf q with
    | none => simp [hoq] at hfq
    | some hv =>
      by_cases hv0 : hv = ""
      · simp [hoq, hv0] at hfq
      · by_cases hsup : alookup stored q = some hv
        · simp [hoq, hv0, hsup] at hfq
        · simp [hoq, hv0, hsup] at hfq
          obtain ⟨rfl, rfl⟩ := hfq
          exact ⟨hq, hoq, hv0, hsup⟩
  · intro hcond
    obtain ⟨hq, hop, h0, hsup⟩ := hcond
    refine List.mem_filterMap.mpr ⟨p, hq, ?_⟩
    simp [hop, h0, hsup]

theorem any_map_getD (normalize : String → String) (needle : String)
    (l : List (Option String)) :
    (List.map (fun o => o.getD "") l).any (fun t => jsToLower (normalize t) == needle) =
      l.any (fun o => jsToLower (normalize (o.getD "")) == needle) := by
  induction l with
  | nil => rfl
  | cons a rest ih => simp [ih]

/-- Claim C4 (confirmed): for every normalization function, configuration
and file, `isFileEligibleForLiveSync` returns exactly the result of the
ordered rules of spec section 4.1. The two definitions differ only in the
rule-4 branch (the code returns `true` there, the spec says not eligible),
which is unreachable: rules 2 and 3 already cover every case with no
configured backlink key. -/
theorem eligibility_matches_spec_rules :
    ∀ (normalize : String → String) (folderToPublish keyBacklink path : String)
      (cache : Option FileCache),
      isFileEligibleForLiveSync normalize folderToPublish keyBacklink path cache =
        eligibleSpecRules normalize folderToPublish keyBacklink path cache := by
  intro normalize folder key path cache
  unfold isFileEligibleForLiveSync eligibleSpecRules
  rcases cache with _ | c
  · by_cases hf : (stripTrailingSlashes (jsTrim folder)).length != 0 <;>
      by_cases hk : (normalize key).length != 0 <;>
      simp [hf, hk, cacheLinkTargets, cacheEmbedTargets]
  · by_cases hf : (stripTrailingSlashes (jsTrim folder)).length != 0 <;>
      by_cases hk : (normalize key).length != 0 <;>
      cases hml : (c.links.getD []).any
          (fun l => jsToLower (normalize (l.getD "")) == jsToLower (normalize key)) <;>
      simp [hf, hk, cacheLinkTargets, cacheEmbedTargets, any_map_getD, hml]

/-- Claim C5 counterexample: the claim extends the hash-table update to
`doPublish` runs triggered by ribbon/commands; but `doPublish`
(src/src/main.ts lines 211-250) never touches `liveSyncHashes`. Here a
ribbon-style run (no filter, no skipCleanup) publishes a.md successfully
(empty failedFiles) yet afterwards `liveSyncHashes` still has no entry for
a.md, where the claim demands it hold the new fingerprint. -/
theorem hash_update_claim_cex :
    (doPublish none none [⟨"a.md", "99", true, none⟩] (fun _ => DeleteOutcome.ok)
      ⟨[], []⟩).failedFiles = []
    ∧ alookup (doPublish none none [⟨"a.md", "99", true, none⟩]
        (fun _ => DeleteOutcome.ok) ⟨[], []⟩).settings.liveSyncHashes ("a.md") = none := by
  decide

theorem publishLoopStep_lookup_ne (res : Option DoPublishOut) (t : String × String)
    (hashes : AList) (p : String) (h : t.1 ≠ p) :
    alookup (publishLoopStep res t hashes) p = alookup hashes p := by
  cases res with
  | none => rfl
  | some r =>
    by_cases he : r.failedFiles.isEmpty <;>
      simp [publishLoopStep, he, alookup_aset_ne hashes t.1 p t.2 h]

theorem publishLoop_preserve (pub : String → Option DoPublishOut)
    (targets : List (String × String)) (p : String)
    (h : ∀ t ∈ targets, t.1 ≠ p) :
    ∀ hashes : AList, alookup (publishLoop pub targets hashes) p = alookup hashes p := by
  induction targets with
  | nil => intro hashes; simp [publishLoop]
  | cons t rest ih =>
    intro hashes
    have hstep : publishLoop pub (t :: rest) hashes =
        publishLoop pub rest (publishLoopStep (pub t.1) t hashes) := by
      simp [publishLoop]
    rw [hstep, ih (fun u hu => h u (List.mem_cons_of_mem t hu))]
    exact publishLoopStep_lookup_ne (pub t.1) t hashes p (h t (List.mem_cons_self t rest))

/-- Claim C5 amended (proved): within the debounce/interval flush's publish
loop, a target whose `doPublish` returns with no failed files gets its
`liveSyncHashes` entry set to the fresh fingerprint, and a target whose
`doPublish` reports failures or throws leaves its entry unchanged; and a
direct `doPublish` run (ribbon/commands) never modifies `liveSyncHashes`
at all. -/
theorem hash_update_semantics :
    (∀ (pub : String → Option DoPublishOut) (targets : List (String × String))
        (hashes : AList), (targets.map Prod.fst).Nodup →
        ∀ p h, (p, h) ∈ targets →
          alookup (publishLoop pub targets hashes) p =
            (match pub p with
             | some r => if r.failedFiles.isEmpty then some h else alookup hashes p
             | none => alookup hashes p))
  ∧ (∀ (publishFilter : Option String) (skipCleanup : Option Bool)
        (pipelineResult : List AdrFileResult) (del : String → DeleteOutcome)
        (st : PubSettings),
        (doPublish publishFilter skipCleanup pipelineResult del st).settings.liveSyncHashes =
          st.liveSyncHashes) := by
  constructor
  · intro pub targets
    induction targets with
    | nil => intro hashes _ p h hmem; simp at hmem
    | cons t rest ih =>
      intro hashes hnd p h hmem
      rw [List.map_cons, List.nodup_cons] at hnd
      have hstep : publishLoop pub (t :: rest) hashes =
          publishLoop pub rest (publishLoopStep (pub t.1) t hashes) := by
        simp [publishLoop]
      rcases List.mem_cons.mp hmem with heq | hr
      · have ht1 : t.1 = p := by rw [← heq]
        have hnp : ∀ u ∈ rest, u.1 ≠ p := by
          intro u hu hc
          exact hnd.1 (by rw [← ht1, ← hc] at *; exact List.mem_map.mpr ⟨u, hu, rfl⟩)
        rw [hstep, publishLoop_preserve pub rest p hnp]
        rw [← heq]
        cases hpub : pub p with
        | none => simp [publishLoopStep, hpub]
        | some r =>
          by_cases he : r.failedFiles.isEmpty <;>
            simp [publishLoopStep, hpub, he, alookup_aset_self]
      · have hp : p ∈ rest.map Prod.fst := List.mem_map.mpr ⟨(p, h), hr, rfl⟩
        have ht1 : t.1 ≠ p := fun hc => hnd.1 (hc ▸ hp)
        rw [hstep, ih (publishLoopStep (pub t.1) t hashes) hnd.2 p h hr]
        cases hpub : pub p with
        | none => exact publishLoopStep_lookup_ne (pub t.1) t hashes p ht1
        | some r =>
          by_cases he : r.failedFiles.isEmpty
          · simp [he]
          · simp [he, publishLoopStep_lookup_ne (pub t.1) t hashes p ht1]
  · intro publishFilter skipCleanup pipelineResult del st
    unfold doPublish
    by_cases hc : (!(skipCleanup.getD (publishFilter.getD "" != ""))) = true <;> simp [hc]

theorem hash_update_semantics_witness :
    alookup (publishLoop (fun _ => some ⟨⟨[], []⟩, [], []⟩) [("a.md", "h")] [])
      ("a.md") = some ("h") := by
  have hc := hash_update_semantics.1 (fun _ => some ⟨⟨[], []⟩, [], []⟩)
    [("a.md", "h")] [] (by decide) ("a.md") ("h") (by decide)
  simpa using hc

/-- Claim C10 (confirmed): a vault modify event whose target is not a
regular `TFile`, or whose extension is not "md", and likewise any modify
event while live sync is disabled or the strategy does not include
on-save, leaves the whole plugin state — pending queue, debounce timer and
status included — unchanged. -/
theorem nonmarkdown_frame :
    ∀ (normalize : String → String) (f : VFile) (s : MState),
      (s.liveSyncEnabled = false ∨
        (s.liveSyncStrategy ≠ "on-save" ∧ s.liveSyncStrategy ≠ "both") ∨
        f.isTFile = false ∨ f.extension ≠ "md") →
      onVaultFileModified normalize f s = s := by
  intro normalize f s h
  unfold onVaultFileModified
  rcases h with h | ⟨h1, h2⟩ | h | h
  · simp [h, shouldUseOnSaveSync]
  · have hb1 : (s.liveSyncStrategy == "on-save") = false := by
      simp [h1]
    have hb2 : (s.liveSyncStrategy == "both") = false := by
      simp [h2]
    cases he : s.liveSyncEnabled <;> simp [he, shouldUseOnSaveSync, hb1, hb2]
  · cases hc : (!s.liveSyncEnabled || !shouldUseOnSaveSync s) <;> simp [hc, h]
  · have hb : (f.extension != "md") = true := by
      simp [h]
    cases hc : (!s.liveSyncEnabled || !shouldUseOnSaveSync s) <;>
      cases ht : f.isTFile <;> simp [hc, ht, hb]

theorem nonmarkdown_frame_witness :
    onVaultFileModified idNormalize ⟨"a.png", true, "png", none⟩
      (initState true ("on-save") ("") ("") []) =
      initState true ("on-save") ("") ("") [] :=
  nonmarkdown_frame idNormalize ⟨"a.png", true, "png", none⟩
    (initState true ("on-save") ("") ("") [])
    (Or.inr (Or.inr (Or.inr (by decide))))

/-- Claim C1 (code bug): a concrete reachable execution in which two publish
pipeline invocations are in flight at once. From startup, a.md is modified
and queued; the debounce timer fires, the flush passes its `isSyncing`
guard, snapshots the queue and suspends awaiting `computeFileHash`; the
user clicks the ribbon — the ribbon guard still sees `isSyncing = false`
(the flush only sets it after the hash loop), so a `doPublish` starts;
the flush then resumes, finds its target and starts a second concurrent
`doPublish`, reaching `inFlight = 2`. -/
theorem single_flight_violation :
    Reachable idNormalize ⟨c1s0, []⟩ c1bad ∧ c1bad.st.inFlight = 2 := by
  constructor
  · have h1 : Step idNormalize ⟨c1s0, []⟩ ⟨c1s1, []⟩ := by
      have e : onVaultFileModified idNormalize exVFile c1s0 = c1s1 := by decide
      exact e ▸ Step.modify exVFile c1s0 []
    have h2 : Step idNormalize ⟨c1s1, []⟩ ⟨c1s2, [Task.flushHash ["a.md"]]⟩ := by
      have e : timerFireResult c1s1 [] = ⟨c1s2, [Task.flushHash ["a.md"]]⟩ := by decide
      exact e ▸ Step.timerFire c1s1 [] (by decide)
    have h3 : Step idNormalize ⟨c1s2, [Task.flushHash ["a.md"]]⟩
        ⟨c1s3, [Task.ribbonPub, Task.flushHash ["a.md"]]⟩ := by
      have e : (⟨{ c1s2 with isSyncing := true, inFlight := c1s2.inFlight + 1 },
          [Task.ribbonPub, Task.flushHash ["a.md"]]⟩ : Config) =
          ⟨c1s3, [Task.ribbonPub, Task.flushHash ["a.md"]]⟩ := by decide
      exact e ▸ Step.ribbonStart c1s2 [Task.flushHash ["a.md"]] (by decide)
    have h4 : Step idNormalize ⟨c1s3, [Task.ribbonPub, Task.flushHash ["a.md"]]⟩ c1bad := by
      have e : resumeHashResult exOracle ["a.md"] c1s3 [Task.ribbonPub] [] = c1bad := by
        decide
      exact e ▸ Step.resumeHash exOracle ["a.md"] c1s3 [Task.ribbonPub] []
    exact Reachable.step (Reachable.step (Reachable.step (Reachable.step
      (Reachable.refl _) h1) h2) h3) h4
  · rfl

/-- Claim C9 counterexample: a concrete reachable execution in which a
publish cycle is in flight while the rendered status is Pending(1).
From startup, a.md is modified and queued (status Pending(1)); the user
clicks the ribbon before the debounce timer fires — `doPublish` starts,
`isSyncing` becomes true, and nothing updates the status bar, which keeps
showing Pending while a cycle is in flight. -/
theorem status_pending_while_syncing_cex :
    Reachable idNormalize ⟨c1s0, []⟩ c9bad ∧
      c9bad.st.isSyncing = true ∧ c9bad.st.inFlight = 1 ∧
      c9bad.st.status = Status.pending 1 := by
  refine ⟨?_, rfl, rfl, rfl⟩
  have h1 : Step idNormalize ⟨c1s0, []⟩ ⟨c1s1, []⟩ := by
    have e : onVaultFileModified idNormalize exVFile c1s0 = c1s1 := by decide
    exact e ▸ Step.modify exVFile c1s0 []
  have h2 : Step idNormalize ⟨c1s1, []⟩ c9bad := by
    have e : (⟨{ c1s1 with isSyncing := true, inFlight := c1s1.inFlight + 1 },
        [Task.ribbonPub]⟩ : Config) = c9bad := by decide
    exact e ▸ Step.ribbonStart c1s1 [] (by decide)
  exact Reachable.step (Reachable.step (Reachable.refl _) h1) h2

theorem addDedup_ne_nil (q : List String) (p : String) : addDedup q p ≠ [] := by
  unfold addDedup
  by_cases h : q.contains p = true
  · rw [if_pos h]
    intro hc
    rw [hc] at h
    simp at h
  · rw [if_neg h]
    simp

theorem modify_preserves_statusInv (normalize : String → String) (f : VFile)
    (s : MState) (h : statusInv s) :
    statusInv (onVaultFileModified normalize f s) := by
  unfold onVaultFileModified
  split
  · exact h
  · split
    · exact h
    · split
      · exact h
      · split
        · exact h
        · exact ⟨h.1, h.2.1,
            fun hq => absurd hq (addDedup_ne_nil s.queue f.path),
            fun _ => rfl⟩

theorem clearLiveSyncQueue_statusInv (s : MState) (h0 : s.isSyncing = false)
    (h1 : s.inFlight = 0) : statusInv (clearLiveSyncQueue s) := by
  unfold clearLiveSyncQueue
  have hc : (!s.isSyncing) = true := by simp [h0]
  rw [if_pos hc]
  exact ⟨h0, h1, fun _ => rfl, fun hc => absurd rfl hc⟩

theorem flushD_statusInv (s : MState) (hq : s.queue = []) (hif : s.inFlight = 0) :
    statusInv (flushD s) := by
  unfold flushD
  have hc : s.queue.isEmpty = true := by simp [hq]
  rw [if_pos hc]
  exact ⟨rfl, hif, fun _ => rfl, fun hc => absurd hq hc⟩

theorem serialPubFold_fields (pub : String → Option DoPublishOut)
    (targets : List (String × String)) :
    ∀ s : MState, (serialPubFold pub targets s).queue = s.queue ∧
      (serialPubFold pub targets s).isSyncing = s.isSyncing ∧
      (serialPubFold pub targets s).status = s.status ∧
      (serialPubFold pub targets s).inFlight = s.inFlight := by
  induction targets with
  | nil => intro s; exact ⟨rfl, rfl, rfl, rfl⟩
  | cons t rest ih =>
    intro s
    have hstep : serialPubFold pub (t :: rest) s =
        serialPubFold pub rest
          { s with liveSyncHashes := publishLoopStep (pub t.1) t s.liveSyncHashes } := by
      simp [serialPubFold]
    rw [hstep]
    exact ih _

theorem runFlushSerial_done (oracle : String → Option String)
    (pub : String → Option DoPublishOut) (s s1 : MState)
    (hfa : flushA s = (s1, FlushAOut.done)) :
    runFlushSerial oracle pub s = s1 := by
  unfold runFlushSerial
  rw [hfa]

theorem runFlushSerial_proceed (oracle : String → Option String)
    (pub : String → Option DoPublishOut) (s s1 : MState) (queued : List String)
    (hfa : flushA s = (s1, FlushAOut.proceed queued)) :
    runFlushSerial oracle pub s =
      (match flushB oracle queued s1 with
       | (s2, none) => s2
       | (s2, some targets) => flushD (serialPubFold pub targets s2)) := by
  unfold runFlushSerial
  rw [hfa]

theorem flushSerial_preserves_statusInv (oracle : String → Option String)
    (pub : String → Option DoPublishOut) (s : MState) (h : statusInv s) :
    statusInv (runFlushSerial oracle pub { s with timerActive := false }) := by
  obtain ⟨h0, h1, h2, h3⟩ := h
  by_cases hen : s.liveSyncEnabled
  · by_cases hq : s.queue.length = 0
    · have hfa : flushA { s with timerActive := false } =
          ({ s with timerActive := false, status := Status.idle }, FlushAOut.done) := by
        simp [flushA, hen, hq, h0]
      rw [runFlushSerial_done oracle pub _ _ hfa]
      have hqe : s.queue = [] := List.length_eq_zero.mp hq
      exact ⟨h0, h1, fun _ => rfl, fun hc => absurd hqe hc⟩
    · have hfa : flushA { s with timerActive := false } =
          ({ s with timerActive := false, queue := ([] : List String) },
            FlushAOut.proceed s.queue) := by
        simp [flushA, hen, hq, h0]
      rw [runFlushSerial_proceed oracle pub _ _ _ hfa]
      by_cases hT : (computeTargets oracle s.liveSyncHashes s.queue).isEmpty = true
      · have hfb : flushB oracle s.queue
            { s with timerActive := false, queue := ([] : List String) } =
            ({ s with
                timerActive := false
                queue := ([] : List String)
                status := Status.idle }, none) := by
          unfold flushB
          rw [if_pos hT]
        rw [hfb]
        exact ⟨h0, h1, fun _ => rfl, fun hc => absurd rfl hc⟩
      · have hfb : flushB oracle s.queue
            { s with timerActive := false, queue := ([] : List String) } =
            ({ s with
                timerActive := false
                queue := ([] : List String)
                isSyncing := true
                status := Status.syncing
                  (computeTargets oracle s.liveSyncHashes s.queue).length },
              some (computeTargets oracle s.liveSyncHashes s.queue)) := by
          unfold flushB
          rw [if_neg hT]
        rw [hfb]
        have hff := serialPubFold_fields pub
          (computeTargets oracle s.liveSyncHashes s.queue)
          { s with
            timerActive := false
            queue := ([] : List String)
            isSyncing := true
            status := Status.syncing
              (computeTargets oracle s.liveSyncHashes s.queue).length }
        exact flushD_statusInv _ hff.1 (by rw [hff.2.2.2]; exact h1)
  · have hfa : flushA { s with timerActive := false } =
        (clearLiveSyncQueue { s with timerActive := false }, FlushAOut.done) := by
      simp [flushA, hen]
    rw [runFlushSerial_done oracle pub _ _ hfa]
    exact clearLiveSyncQueue_statusInv _ h0 h1

theorem serial_reachable_statusInv (normalize : String → String) :
    ∀ s, SerialReachable normalize s → statusInv s := by
  intro s hs
  induction hs with
  | init enabled strategy folder key hashes =>
      exact ⟨rfl, rfl, fun _ => rfl, fun hc => absurd rfl hc⟩
  | step ha hab ih =>
      cases hab with
      | modify f a => exact modify_preserves_statusInv normalize f _ ih
      | flush oracle pub a => exact flushSerial_preserves_statusInv oracle pub _ ih
      | ribbon a => exact ih
      | disable a => exact clearLiveSyncQueue_statusInv _ ih.1 ih.2.1

/-- Claim C9 amended (proved): in every serial execution (each handler runs
to completion before the next begins) the derivation holds at every
handler boundary — no cycle in flight, status Idle exactly when the queue
is empty and Pending(queue size) when non-empty; and whenever a flush
cycle starts publishing, it shows Syncing(n) with n its target count.
While a cycle is in flight, however, the label is not derived: a modify
event during the flight overwrites it to Pending, and ribbon/command
cycles never set Syncing at all (the counterexample). -/
theorem status_derivation_amended :
    (∀ (normalize : String → String) (s : MState),
        SerialReachable normalize s → statusInv s)
  ∧ (∀ (oracle : String → Option String) (queued : List String) (s s' : MState)
        (targets : List (String × String)),
        flushB oracle queued s = (s', some targets) →
        s'.status = Status.syncing targets.length) := by
  constructor
  · exact serial_reachable_statusInv
  · intro oracle queued s s' targets heq
    unfold flushB at heq
    by_cases hT : (computeTargets oracle s.liveSyncHashes queued).isEmpty
    · rw [if_pos hT] at heq
      simp at heq
    · rw [if_neg hT] at heq
      simp at heq
      obtain ⟨hs', ht⟩ := heq
      rw [← hs', ← ht]

theorem status_derivation_amended_witness :
    statusInv (initState true ("on-save") ("") ("") []) :=
  status_derivation_amended.1 idNormalize (initState true ("on-save") ("") ("") [])
    (SerialReachable.init true ("on-save") ("") ("") [])

end Confluence
